import Mathlib

/-!
Verification of the time-series aggregation and filtering engine of the
Investor-Analysis-DashBoard repository (scripts/dashboard.py and the
data-preparation scripts), as a shallow embedding in Lean.

Tables are lists of typed rows; pandas float cells are modelled as exact
rationals extended with NaN and signed infinities; nullable integer columns
are `Option ℤ`.  Sorting models `sort_values` (for descending single-column
sorts pandas computes a stable ascending argsort for the sizes used here and
reverses it), grouping models `groupby` (keys compared by value; group series
taken in frame order), and `Series.pct_change(periods=p) * 100` is embedded by
`pctChange`.
-/

set_option maxHeartbeats 1000000

/-! ### Lexicographic order on character lists

`String.ltb` in core is iterator-based and does not reduce in the kernel, so
string comparison (Python code-point comparison, used by `sort_values` and
sorted `groupby` keys) is embedded as the lexicographic order on `String.data`.
-/

/-- Lexicographic strict order on lists over a linear order; this is how Python
compares strings (by code points), used by pandas sorts on string columns. -/
def lexLt {α : Type} [LinearOrder α] : List α → List α → Bool
  | [], [] => false
  | [], _ :: _ => true
  | _ :: _, [] => false
  | a :: as, b :: bs => if a < b then true else if a = b then lexLt as bs else false

/-- Strict order on strings: lexicographic on the underlying character list. -/
def strLt (a b : String) : Prop := lexLt a.data b.data = true

instance : DecidableRel strLt := fun a b =>
  inferInstanceAs (Decidable (lexLt a.data b.data = true))

theorem lexLt_trichotomy {α : Type} [LinearOrder α] :
    ∀ as bs : List α, lexLt as bs = true ∨ as = bs ∨ lexLt bs as = true := by
  intro as
  induction as with
  | nil =>
    intro bs
    cases bs with
    | nil => exact Or.inr (Or.inl rfl)
    | cons b bs => exact Or.inl rfl
  | cons a as ih =>
    intro bs
    cases bs with
    | nil => exact Or.inr (Or.inr rfl)
    | cons b bs =>
      rcases lt_trichotomy a b with hab | hab | hab
      · refine Or.inl ?_
        simp [lexLt, hab]
      · subst hab
        rcases ih bs with h | h | h
        · refine Or.inl ?_
          simp [lexLt, h]
        · subst h
          exact Or.inr (Or.inl rfl)
        · refine Or.inr (Or.inr ?_)
          simp [lexLt, h]
      · refine Or.inr (Or.inr ?_)
        simp [lexLt, hab]

theorem lexLt_trans {α : Type} [LinearOrder α] :
    ∀ as bs cs : List α, lexLt as bs = true → lexLt bs cs = true → lexLt as cs = true := by
  intro as
  induction as with
  | nil =>
    intro bs cs h1 h2
    cases bs with
    | nil => exact h2
    | cons b bs =>
      cases cs with
      | nil => simp [lexLt] at h2
      | cons c cs => rfl
  | cons a as ih =>
    intro bs cs h1 h2
    cases bs with
    | nil => simp [lexLt] at h1
    | cons b bs =>
      cases cs with
      | nil => simp [lexLt] at h2
      | cons c cs =>
        simp only [lexLt] at h1 h2 ⊢
        rcases lt_trichotomy a b with hab | hab | hab
        · rcases lt_trichotomy b c with hbc | hbc | hbc
          · rw [if_pos (lt_trans hab hbc)]
          · subst hbc
            rw [if_pos hab]
          · rw [if_neg (lt_asymm hbc), if_neg (ne_of_gt hbc)] at h2
            exact absurd h2 (by simp)
        · subst hab
          rw [if_neg (lt_irrefl a), if_pos rfl] at h1
          rcases lt_trichotomy a c with hac | hac | hac
          · rw [if_pos hac]
          · subst hac
            rw [if_neg (lt_irrefl a), if_pos rfl] at h2 ⊢
            exact ih bs cs h1 h2
          · rw [if_neg (lt_asymm hac), if_neg (ne_of_gt hac)] at h2
            exact absurd h2 (by simp)
        · rw [if_neg (lt_asymm hab), if_neg (ne_of_gt hab)] at h1
          exact absurd h1 (by simp)

theorem lexLt_irrefl {α : Type} [LinearOrder α] : ∀ as : List α, lexLt as as = false := by
  intro as
  induction as with
  | nil => rfl
  | cons a as ih => simp [lexLt, ih]

theorem str_ext {a b : String} (h : a.data = b.data) : a = b := by
  cases a
  cases b
  cases h
  rfl

theorem strLt_trichotomy (a b : String) : strLt a b ∨ a = b ∨ strLt b a := by
  rcases lexLt_trichotomy a.data b.data with h | h | h
  · exact Or.inl h
  · exact Or.inr (Or.inl (str_ext h))
  · exact Or.inr (Or.inr h)

theorem strLt_trans {a b c : String} (h1 : strLt a b) (h2 : strLt b c) : strLt a c :=
  lexLt_trans a.data b.data c.data h1 h2

theorem strLt_irrefl (a : String) : ¬ strLt a a := by
  unfold strLt
  simp [lexLt_irrefl]

/-! ### pandas percent change

`Series.pct_change(periods=p)` computes `v[t] / v[t-p] - 1`; positions with
fewer than `p` predecessors get NaN, a zero previous value gives a signed
infinity (or NaN when the current value is also zero).  The dashboard always
multiplies by 100.  Floats are modelled as exact rationals. -/

/-- A pandas float cell produced by a percent-change computation: NaN, a signed
infinity, or a finite value. -/
inductive PctResult where
  | undef : PctResult
  | posInf : PctResult
  | negInf : PctResult
  | val : ℚ → PctResult
deriving DecidableEq

/-- The value of `s.pct_change(periods=p) * 100` at position `t` of the series
`vs` (float semantics: NaN without `p` predecessors; division by a zero
previous value yields a signed infinity, or NaN for 0/0). -/
def pctChangeAt (p : ℕ) (vs : List ℚ) (t : ℕ) : PctResult :=
  if t < p then PctResult.undef
  else if vs.getD (t - p) 0 = 0 then
    (if vs.getD t 0 = 0 then PctResult.undef
     else if 0 < vs.getD t 0 then PctResult.posInf
     else PctResult.negInf)
  else PctResult.val ((vs.getD t 0 - vs.getD (t - p) 0) / vs.getD (t - p) 0 * 100)

/-- `s.pct_change(periods=p) * 100` over a whole series, aligned
index-for-index with the input. -/
def pctChange (p : ℕ) (vs : List ℚ) : List PctResult :=
  (List.range vs.length).map (pctChangeAt p vs)

theorem length_pctChange (p : ℕ) (vs : List ℚ) : (pctChange p vs).length = vs.length := by
  simp [pctChange]

theorem pctChange_getD (p : ℕ) (vs : List ℚ) (t : ℕ) (ht : t < vs.length) :
    (pctChange p vs).getD t PctResult.undef = pctChangeAt p vs t := by
  unfold pctChange
  rw [List.getD_eq_getElem?_getD, List.getElem?_map, List.getElem?_range ht]
  rfl

/-! ### Category monthly table (dashboard.py, prepare_category_monthly /
compute_category_yoy_qoq) -/

/-- One row of the cleaned category-monthly table: canonical category label,
month (as a month index on a linear time axis), integer registrations. -/
structure CatRow where
  category : String
  date : ℕ
  registrations : ℤ
deriving DecidableEq

/-- Row order used by `df.sort_values(['Category', 'Date'])`. -/
def rowLe (a b : CatRow) : Prop :=
  strLt a.category b.category ∨ (a.category = b.category ∧ a.date ≤ b.date)

instance : DecidableRel rowLe := fun a b =>
  inferInstanceAs (Decidable (strLt a.category b.category ∨ _))

instance : IsTotal CatRow rowLe := by
  refine ⟨fun a b => ?_⟩
  rcases strLt_trichotomy a.category b.category with h | h | h
  · exact Or.inl (Or.inl h)
  · rcases le_total a.date b.date with hd | hd
    · exact Or.inl (Or.inr ⟨h, hd⟩)
    · exact Or.inr (Or.inr ⟨h.symm, hd⟩)
  · exact Or.inr (Or.inl h)

instance : IsTrans CatRow rowLe := by
  refine ⟨fun a b c hab hbc => ?_⟩
  rcases hab with h1 | ⟨e1, d1⟩
  · rcases hbc with h2 | ⟨e2, d2⟩
    · exact Or.inl (strLt_trans h1 h2)
    · exact Or.inl (e2 ▸ h1)
  · rcases hbc with h2 | ⟨e2, d2⟩
    · refine Or.inl ?_
      rw [e1]
      exact h2
    · exact Or.inr ⟨e1.trans e2, d1.trans d2⟩

/-- `df.sort_values(['Category', 'Date'])`. -/
def sortRows (rows : List CatRow) : List CatRow := List.insertionSort rowLe rows

/-- The rows of group `g` of the sorted frame, in frame order: this is the
series that `groupby('Category')` hands to `pct_change` for group `g`. -/
def groupRows (g : String) (rows : List CatRow) : List CatRow :=
  (sortRows rows).filter (fun r => decide (r.category = g))

/-- Registration values of group `g`, chronologically ordered (the grouped
series `pct_change` runs on). -/
def groupSeries (g : String) (rows : List CatRow) : List ℚ :=
  (groupRows g rows).map (fun r => (r.registrations : ℚ))

/-- Dates of group `g` in frame order. -/
def groupDates (g : String) (rows : List CatRow) : List ℕ :=
  (groupRows g rows).map (fun r => r.date)

/-- `compute_category_yoy_qoq`, YoY column: sort by (Category, Date), then per
category apply `pct_change(periods=12) * 100`; the result is presented per
group (transform aligns each group value back to its row). -/
def computeCategoryYoY (rows : List CatRow) : List (String × List PctResult) :=
  (((sortRows rows).map (fun r => r.category)).dedup).map
    (fun g => (g, pctChange 12 (groupSeries g rows)))

/-! ### Manufacturer table (dashboard.py, prepare_manufacturers /
compute_manufacturer_yoy) -/

/-- One row of the concatenated manufacturer table: maker, nullable year
(`Int64` with NA), category code, integer registrations. -/
structure MRow where
  maker : String
  year : Option ℤ
  category : String
  registrations : ℤ
deriving DecidableEq

/-- Order on nullable years used by `sort_values` (NA sorts last). -/
def optYearLe (a b : Option ℤ) : Prop :=
  match a, b with
  | _, none => True
  | none, some _ => False
  | some x, some y => x ≤ y

instance : DecidableRel optYearLe := fun a b =>
  match a, b with
  | none, none => isTrue trivial
  | some _, none => isTrue trivial
  | none, some _ => isFalse (fun h => h)
  | some x, some y => inferInstanceAs (Decidable (x ≤ y))

/-- Row order used by `m.sort_values(['Maker', 'Year'])`. -/
def mLe (a b : MRow) : Prop :=
  strLt a.maker b.maker ∨ (a.maker = b.maker ∧ optYearLe a.year b.year)

instance : DecidableRel mLe := fun a b =>
  inferInstanceAs (Decidable (strLt a.maker b.maker ∨ _))

theorem optYearLe_total : ∀ a b : Option ℤ, optYearLe a b ∨ optYearLe b a := by
  intro a b
  cases a with
  | none =>
    cases b with
    | none => exact Or.inl trivial
    | some y => exact Or.inr trivial
  | some x =>
    cases b with
    | none => exact Or.inl trivial
    | some y => exact le_total x y

theorem optYearLe_none (a : Option ℤ) : optYearLe a none := by
  cases a <;> trivial

theorem optYearLe_trans :
    ∀ a b c : Option ℤ, optYearLe a b → optYearLe b c → optYearLe a c := by
  intro a b c hab hbc
  cases c with
  | none => exact optYearLe_none a
  | some z =>
    cases b with
    | none => exact hbc.elim
    | some y =>
      cases a with
      | none => exact hab.elim
      | some x => exact le_trans hab hbc

instance : IsTotal MRow mLe := by
  refine ⟨fun a b => ?_⟩
  rcases strLt_trichotomy a.maker b.maker with h | h | h
  · exact Or.inl (Or.inl h)
  · rcases optYearLe_total a.year b.year with hy | hy
    · exact Or.inl (Or.inr ⟨h, hy⟩)
    · exact Or.inr (Or.inr ⟨h.symm, hy⟩)
  · exact Or.inr (Or.inl h)

instance : IsTrans MRow mLe := by
  refine ⟨fun a b c hab hbc => ?_⟩
  rcases hab with h1 | ⟨e1, y1⟩
  · rcases hbc with h2 | ⟨e2, y2⟩
    · exact Or.inl (strLt_trans h1 h2)
    · exact Or.inl (e2 ▸ h1)
  · rcases hbc with h2 | ⟨e2, y2⟩
    · refine Or.inl ?_
      rw [e1]
      exact h2
    · exact Or.inr ⟨e1.trans e2, optYearLe_trans _ _ _ y1 y2⟩

/-- The grouping key of `groupby(['Maker','Year','Category'], dropna=False)`. -/
def mKey (r : MRow) : String × Option ℤ × String := (r.maker, r.year, r.category)

/-- `mdf.groupby(['Maker','Year','Category'], dropna=False, as_index=False)
['Registrations'].sum()`: one row per distinct key, summing registrations. -/
def aggregateMYC (rows : List MRow) : List MRow :=
  ((rows.map mKey).dedup).map (fun k =>
    { maker := k.1, year := k.2.1, category := k.2.2,
      registrations :=
        ((rows.filter (fun r => decide (mKey r = k))).map (fun r => r.registrations)).sum })

/-- `m.sort_values(['Maker', 'Year'])`. -/
def sortMRows (rows : List MRow) : List MRow := List.insertionSort mLe rows

/-- Aggregated rows of maker `m` in sorted frame order (the grouped series of
`groupby('Maker')` in `compute_manufacturer_yoy`). -/
def makerRows (m : String) (rows : List MRow) : List MRow :=
  (sortMRows (aggregateMYC rows)).filter (fun r => decide (r.maker = m))

/-- Yearly registration series of maker `m`, year-ordered. -/
def makerSeries (m : String) (rows : List MRow) : List ℚ :=
  (makerRows m rows).map (fun r => (r.registrations : ℚ))

/-- Years of maker `m`'s aggregated rows in frame order. -/
def makerYears (m : String) (rows : List MRow) : List (Option ℤ) :=
  (makerRows m rows).map (fun r => r.year)

/-- `compute_manufacturer_yoy`: aggregate to one row per Maker/Year/Category,
sort by (Maker, Year), per maker apply `pct_change(periods=1) * 100`; presented
per group. -/
def computeManufacturerYoY (rows : List MRow) : List (String × List PctResult) :=
  (((sortMRows (aggregateMYC rows)).map (fun r => r.maker)).dedup).map
    (fun m => (m, pctChange 1 (makerSeries m rows)))

/-! ### Category code reconciler (dashboard.py, CATEGORY_CODE_MAP /
map_dropdown_categories_to_codes) -/

/-- Python `str.strip()` on the character list: drop whitespace from both
ends. -/
def stripChars (l : List Char) : List Char :=
  ((l.dropWhile Char.isWhitespace).reverse.dropWhile Char.isWhitespace).reverse

/-- Python `str.strip()`. -/
def pyStrip (s : String) : String := ⟨stripChars s.data⟩

/-- The fixed dropdown-label → manufacturer-code map (ten entries). -/
def CATEGORY_CODE_MAP : List (String × String) :=
  [("FOUR WHEELER (INVALID CARRIAGE)", "4WIC"),
   ("HEAVY MOTOR VEHICLE", "HMV"),
   ("LIGHT MOTOR VEHICLE", "LMV"),
   ("MEDIUM MOTOR VEHICLE", "MMV"),
   ("THREE WHEELER (INVALID CARRIAGE)", "3WIC"),
   ("THREE WHEELER(NT)", "3WN"),
   ("THREE WHEELER(T)", "3WT"),
   ("TWO WHEELER (INVALID CARRIAGE)", "2WIC"),
   ("TWO WHEELER(NT)", "2WN"),
   ("TWO WHEELER(T)", "2WT")]

/-- `CATEGORY_CODE_MAP.get(c)`. -/
def lookupCode (c : String) : Option String :=
  (CATEGORY_CODE_MAP.find? (fun kv => kv.1 == c)).map (fun kv => kv.2)

/-- The loop body of `map_dropdown_categories_to_codes`: the value is rebound
to its stripped form (`c = str(c).strip()`), mapped through the fixed table,
and the stripped value itself is the fallback when the lookup misses (or
yields a falsy value, `if code:`). -/
def mapOneCategory (c : String) : String :=
  match lookupCode (pyStrip c) with
  | some code => if code = "" then pyStrip c else code
  | none => pyStrip c

/-- The dropdown value handed to the callbacks: Python `None`, a single
string, or a list of strings. -/
inductive CatSelection where
  | noneSel : CatSelection
  | strSel : String → CatSelection
  | listSel : List String → CatSelection

/-- `map_dropdown_categories_to_codes`: falsy selections (None, empty string,
empty list) become None ("no filter"); otherwise every value is mapped through
the table with identity fallback. -/
def mapDropdownCategoriesToCodes : CatSelection → Option (List String)
  | CatSelection.noneSel => none
  | CatSelection.strSel s => if s = "" then none else some ([s].map mapOneCategory)
  | CatSelection.listSel l => if l.isEmpty then none else some (l.map mapOneCategory)

/-! ### Filters on the manufacturer table (dashboard.py callbacks) -/

/-- `if category_codes: df = df[df['Category'].isin(category_codes)]` — a
falsy code list (None or empty) applies no filter. -/
def applyCategoryFilterM (codes : Option (List String)) (rows : List MRow) : List MRow :=
  match codes with
  | none => rows
  | some cs => if cs.isEmpty then rows else rows.filter (fun r => cs.contains r.category)

/-- `(df['Year'] >= start_year) & (df['Year'] <= end_year)`; a NA year compares
false on both sides and is dropped. -/
def yearInRange (y : Option ℤ) (s e : ℤ) : Bool :=
  match y with
  | none => false
  | some v => decide (s ≤ v) && decide (v ≤ e)

/-- `df.groupby('Maker', as_index=False)['Registrations'].sum()`: group keys in
ascending maker order (pandas sorts group keys), each with the summed
registrations. -/
def groupSumByMaker (rows : List MRow) : List (String × ℤ) :=
  (List.insertionSort (fun a b => strLt a b ∨ a = b) ((rows.map (fun r => r.maker)).dedup)).map
    (fun m => (m, ((rows.filter (fun r => decide (r.maker = m))).map
      (fun r => r.registrations)).sum))

/-- Ascending comparison on the aggregated-sum component, the key of
`sort_values('Registrations')`. -/
def sumLe (a b : String × ℤ) : Prop := a.2 ≤ b.2

instance : DecidableRel sumLe := fun a b => inferInstanceAs (Decidable (a.2 ≤ b.2))

instance : IsTotal (String × ℤ) sumLe := ⟨fun a b => le_total a.2 b.2⟩

instance : IsTrans (String × ℤ) sumLe := ⟨fun _ _ _ h1 h2 => le_trans h1 h2⟩

/-- `sort_values('Registrations', ascending=False)` on (maker, sum) pairs:
pandas reverses an ascending argsort, which is stable (insertion sort) at the
sizes involved, so ties end up in reversed ascending order. -/
def sortDescBySnd (l : List (String × ℤ)) : List (String × ℤ) :=
  (List.insertionSort sumLe l).reverse

/-- The frame `update_maker_dropdown` ranks: rows surviving the mapped
category-code filter and (when both dates are given) the year range and the
`Registrations > 0` filter. -/
def dropdownFiltered (rows : List MRow) (sel : CatSelection) (startY endY : Option ℤ) :
    List MRow :=
  let codes := mapDropdownCategoriesToCodes sel
  let df := applyCategoryFilterM codes rows
  match startY, endY with
  | some s, some e =>
      (df.filter (fun r => yearInRange r.year s e)).filter (fun r => decide (0 < r.registrations))
  | _, _ => df

/-- `makers_sorted` of `update_maker_dropdown`: makers by summed registrations,
descending. -/
def dropdownMakers (rows : List MRow) (sel : CatSelection) (startY endY : Option ℤ) :
    List String :=
  (sortDescBySnd (groupSumByMaker (dropdownFiltered rows sel startY endY))).map (fun x => x.1)

/-- `update_maker_dropdown`: the option list, and the selection cleared
(`None`) whenever the current maker is not among the listed makers. -/
def updateMakerDropdown (rows : List MRow) (sel : CatSelection) (startY endY : Option ℤ)
    (current : Option String) : List String × Option String :=
  let makersSorted := dropdownMakers rows sel startY endY
  (makersSorted,
   match current with
   | none => none
   | some m => if m ∈ makersSorted then some m else none)

/-- The row filters of `update_top_makers`: category codes, optional exact
maker, year range. -/
def topMakersFiltered (rows : List MRow) (sel : CatSelection) (makerSel : Option String)
    (s e : ℤ) : List MRow :=
  let codes := mapDropdownCategoriesToCodes sel
  let df := applyCategoryFilterM codes rows
  let df := match makerSel with
    | none => df
    | some mk => if mk = "" then df else df.filter (fun r => decide (r.maker = mk))
  df.filter (fun r => yearInRange r.year s e)

/-- `update_top_makers`: filter, group-sum by maker, sort descending by the
sum, take the first 10. -/
def updateTopMakers (rows : List MRow) (sel : CatSelection) (makerSel : Option String)
    (s e : ℤ) : List (String × ℤ) :=
  (sortDescBySnd (groupSumByMaker (topMakersFiltered rows sel makerSel s e))).take 10

/-- Modelled from the spec: the ranking the spec describes sorts descending by
the aggregated value with a stable sort, so ties keep the original group-key
order, and truncates to the top `n` afterwards.  Stated only to compare with
`updateTopMakers`. -/
def specStableTopN (n : ℕ) (l : List (String × ℤ)) : List (String × ℤ) :=
  (List.insertionSort (fun a b => b.2 ≤ a.2) l).take n

/-! ### Schema normalizer (dashboard.py prepare_* / unpivot scripts) -/

/-- numpy float→int64 conversion truncates toward zero. -/
def truncToInt (q : ℚ) : ℤ := q.num.tdiv q.den

/-- `pd.to_numeric(x, errors='coerce').fillna(0).astype(int)` on one cell: an
unparseable cell (None) becomes NaN, is filled with 0; a parsed numeric is
truncated to an integer. -/
def coerceRegistration (cell : Option ℚ) : ℤ :=
  match cell with
  | none => 0
  | some q => truncToInt q

/-- The registrations column after coercion. -/
def coerceRegistrations (cells : List (Option ℚ)) : List ℤ :=
  cells.map coerceRegistration

/-- Whether `pat` occurs as a contiguous run inside the list (Python's
substring `in`). -/
def startsList : List Char → List Char → Bool
  | [], _ => true
  | _ :: _, [] => false
  | a :: as, b :: bs => a == b && startsList as bs

def containsSub (pat : List Char) : List Char → Bool
  | [] => startsList pat []
  | c :: cs => startsList pat (c :: cs) || containsSub pat cs

/-- Python `pat in str(c).lower()` for an ASCII pattern. -/
def strContainsLower (s : String) (pat : List Char) : Bool :=
  containsSub pat (s.data.map Char.toLower)

/-- Which column of the category-monthly table provides dates. -/
inductive DateSource where
  | dateCol : DateSource
  | monthRawCol : DateSource
  | yearMonthCols : DateSource
deriving DecidableEq

/-- The date-column selection of `prepare_category_monthly`: use `Date`, else
`MonthRaw`, else `Year`+`Month`, else raise. -/
def chooseDateSource (cols : List String) : Except String DateSource :=
  if "Date" ∈ cols then Except.ok DateSource.dateCol
  else if "MonthRaw" ∈ cols then Except.ok DateSource.monthRawCol
  else if "Year" ∈ cols ∧ "Month" ∈ cols then Except.ok DateSource.yearMonthCols
  else Except.error "No Date/MonthRaw/Year+Month in category monthly file"

/-- `find_category_col` of unpivot_category_monthly.py: first column whose
lowercased name contains "category" or "vehicle", else a ValueError. -/
def find_category_col (cols : List String) : Except String String :=
  match cols.find? (fun c =>
      strContainsLower c "category".data || strContainsLower c "vehicle".data) with
  | some c => Except.ok c
  | none => Except.error "Could not find category column"

/-! ### Main-charts recomputation (dashboard.py, update_main_charts) -/

/-- `(d['Date'] >= start) & (d['Date'] <= end)`. -/
def filterDateRange (s e : ℕ) (rows : List CatRow) : List CatRow :=
  rows.filter (fun r => decide (s ≤ r.date) && decide (r.date ≤ e))

/-- The monthly frame `d` of `update_main_charts`: restrict to the selected
date range, then to the selected categories (a single string is wrapped in a
list; a falsy selection applies no filter). -/
def mainChartsData (rows : List CatRow) (s e : ℕ) (sel : CatSelection) : List CatRow :=
  let d := filterDateRange s e rows
  match sel with
  | CatSelection.noneSel => d
  | CatSelection.strSel c => d.filter (fun r => [c].contains r.category)
  | CatSelection.listSel l => if l.isEmpty then d else d.filter (fun r => l.contains r.category)

/-- The monthly YoY series of group `g` that `update_main_charts` returns:
recomputed with `pct_change(periods=12) * 100` over the filtered frame only. -/
def mainChartsYoY (rows : List CatRow) (s e : ℕ) (sel : CatSelection) (g : String) :
    List PctResult :=
  pctChange 12 (groupSeries g (mainChartsData rows s e sel))

/-! ### Supporting lemmas -/

theorem pctChangeAt_val (p t : ℕ) (vs : List ℚ) (hp : p ≤ t)
    (h0 : vs.getD (t - p) 0 ≠ 0) :
    pctChangeAt p vs t =
      PctResult.val ((vs.getD t 0 - vs.getD (t - p) 0) / vs.getD (t - p) 0 * 100) := by
  unfold pctChangeAt
  rw [if_neg (not_lt.mpr hp), if_neg h0]

theorem groupRows_pairwise (g : String) (rows : List CatRow) :
    List.Pairwise rowLe (groupRows g rows) :=
  List.Pairwise.sublist (List.filter_sublist _) (List.sorted_insertionSort rowLe rows)

theorem category_of_mem_groupRows {g : String} {rows : List CatRow} {r : CatRow}
    (h : r ∈ groupRows g rows) : r.category = g :=
  of_decide_eq_true (List.mem_filter.mp h).2

theorem groupDates_sorted (g : String) (rows : List CatRow) :
    List.Sorted (fun a b : ℕ => a ≤ b) (groupDates g rows) := by
  show List.Pairwise _ (List.map _ _)
  rw [List.pairwise_map]
  refine List.Pairwise.imp_of_mem ?_ (groupRows_pairwise g rows)
  intro a b ha hb hab
  rcases hab with h1 | ⟨_, hd⟩
  · exfalso
    rw [category_of_mem_groupRows ha, category_of_mem_groupRows hb] at h1
    exact strLt_irrefl g h1
  · exact hd

theorem makerRows_pairwise (m : String) (rows : List MRow) :
    List.Pairwise mLe (makerRows m rows) :=
  List.Pairwise.sublist (List.filter_sublist _) (List.sorted_insertionSort mLe _)

theorem maker_of_mem_makerRows {m : String} {rows : List MRow} {r : MRow}
    (h : r ∈ makerRows m rows) : r.maker = m :=
  of_decide_eq_true (List.mem_filter.mp h).2

theorem makerYears_sorted (m : String) (rows : List MRow) :
    List.Sorted optYearLe (makerYears m rows) := by
  show List.Pairwise _ (List.map _ _)
  rw [List.pairwise_map]
  refine List.Pairwise.imp_of_mem ?_ (makerRows_pairwise m rows)
  intro a b ha hb hab
  rcases hab with h1 | ⟨_, hy⟩
  · exfalso
    rw [maker_of_mem_makerRows ha, maker_of_mem_makerRows hb] at h1
    exact strLt_irrefl m h1
  · exact hy

/-! ### Concrete tables used by witnesses and counterexamples -/

/-- 13 consecutive months of one category: a year of history ahead of the last
month. -/
def rows13 : List CatRow :=
  [⟨"LMV", 0, 100⟩, ⟨"LMV", 1, 100⟩, ⟨"LMV", 2, 100⟩, ⟨"LMV", 3, 100⟩,
   ⟨"LMV", 4, 100⟩, ⟨"LMV", 5, 100⟩, ⟨"LMV", 6, 100⟩, ⟨"LMV", 7, 100⟩,
   ⟨"LMV", 8, 100⟩, ⟨"LMV", 9, 100⟩, ⟨"LMV", 10, 100⟩, ⟨"LMV", 11, 100⟩,
   ⟨"LMV", 12, 110⟩]

/-- Two manufacturer years with a nonzero first year. -/
def mrowsC1 : List MRow :=
  [⟨"Acme", some 2021, "2WT", 100⟩, ⟨"Acme", some 2022, "2WT", 110⟩]

/-- Two manufacturer years whose first year has zero registrations. -/
def mrowsC2 : List MRow :=
  [⟨"Acme", some 2021, "2WT", 0⟩, ⟨"Acme", some 2022, "2WT", 5⟩]

/-- Duplicate (maker, code, year) rows from two segment files. -/
def acmeRows : List MRow :=
  [⟨"Acme", some 2022, "2WT", 50⟩, ⟨"Acme", some 2022, "2WT", 30⟩]

/-! ### C1 -/

/-- C1: within every group (category or maker) the series is time-ordered, and
at every position with at least `period` prior observations and a nonzero
value `period` steps earlier, the percent-change operation yields exactly
`(v[t] - v[t-period]) / v[t-period] * 100`; each group's series feeds the
corresponding pipeline result. -/
theorem spec_c1 (rows : List CatRow) (mrows : List MRow) (p : ℕ) (g m : String) :
    List.Sorted (fun a b : ℕ => a ≤ b) (groupDates g rows) ∧
    (∀ t, p ≤ t → t < (groupSeries g rows).length →
      (groupSeries g rows).getD (t - p) 0 ≠ 0 →
      (pctChange p (groupSeries g rows)).getD t PctResult.undef =
        PctResult.val
          (((groupSeries g rows).getD t 0 - (groupSeries g rows).getD (t - p) 0) /
            (groupSeries g rows).getD (t - p) 0 * 100)) ∧
    (g ∈ (sortRows rows).map (fun r => r.category) →
      (g, pctChange 12 (groupSeries g rows)) ∈ computeCategoryYoY rows) ∧
    List.Sorted optYearLe (makerYears m mrows) ∧
    (∀ t, p ≤ t → t < (makerSeries m mrows).length →
      (makerSeries m mrows).getD (t - p) 0 ≠ 0 →
      (pctChange p (makerSeries m mrows)).getD t PctResult.undef =
        PctResult.val
          (((makerSeries m mrows).getD t 0 - (makerSeries m mrows).getD (t - p) 0) /
            (makerSeries m mrows).getD (t - p) 0 * 100)) ∧
    (m ∈ (sortMRows (aggregateMYC mrows)).map (fun r => r.maker) →
      (m, pctChange 1 (makerSeries m mrows)) ∈ computeManufacturerYoY mrows) := by
  refine ⟨groupDates_sorted g rows, ?_, ?_, makerYears_sorted m mrows, ?_, ?_⟩
  · intro t hp ht h0
    rw [pctChange_getD _ _ _ ht, pctChangeAt_val _ _ _ hp h0]
  · intro hg
    unfold computeCategoryYoY
    exact List.mem_map_of_mem _ (List.mem_dedup.mpr hg)
  · intro t hp ht h0
    rw [pctChange_getD _ _ _ ht, pctChangeAt_val _ _ _ hp h0]
  · intro hm
    unfold computeManufacturerYoY
    exact List.mem_map_of_mem _ (List.mem_dedup.mpr hm)

/-- Witness for C1 at concrete tables, exercising all four hypothesis-bearing
conjuncts. -/
theorem spec_c1_witness :
    (pctChange 12 (groupSeries "LMV" rows13)).getD 12 PctResult.undef =
      PctResult.val
        (((groupSeries "LMV" rows13).getD 12 0 - (groupSeries "LMV" rows13).getD 0 0) /
          (groupSeries "LMV" rows13).getD 0 0 * 100) ∧
    ("LMV", pctChange 12 (groupSeries "LMV" rows13)) ∈ computeCategoryYoY rows13 ∧
    (pctChange 1 (makerSeries "Acme" mrowsC1)).getD 1 PctResult.undef =
      PctResult.val
        (((makerSeries "Acme" mrowsC1).getD 1 0 - (makerSeries "Acme" mrowsC1).getD 0 0) /
          (makerSeries "Acme" mrowsC1).getD 0 0 * 100) ∧
    ("Acme", pctChange 1 (makerSeries "Acme" mrowsC1)) ∈ computeManufacturerYoY mrowsC1 := by
  refine ⟨?_, ?_, ?_, ?_⟩
  · exact (spec_c1 rows13 mrowsC1 12 "LMV" "Acme").2.1 12 (le_refl 12) (by decide) (by decide)
  · exact (spec_c1 rows13 mrowsC1 12 "LMV" "Acme").2.2.1 (by decide)
  · exact (spec_c1 rows13 mrowsC1 1 "LMV" "Acme").2.2.2.2.1 1 (le_refl 1) (by decide) (by decide)
  · exact (spec_c1 rows13 mrowsC1 1 "LMV" "Acme").2.2.2.2.2 (by decide)

/-! ### C2 -/

/-- C2 counterexample: with a zero value one period earlier and a positive
current value, the code's percent change is positive infinity (pandas float
division by zero), not the undefined/null the claim asserts. -/
theorem spec_c2_counterexample :
    computeManufacturerYoY mrowsC2 = [("Acme", [PctResult.undef, PctResult.posInf])] ∧
    PctResult.posInf ≠ PctResult.undef := by
  refine ⟨by decide, by decide⟩

/-- C2 (amended): with fewer than `period` prior observations the result is
undefined (null); with a zero value at `t - period` the result is a signed
infinity when the current value is nonzero — positive infinity for a positive
current value, negative infinity for a negative one — and undefined only when
the current value is also zero; no case is an error or an ordinary number. -/
theorem spec_c2 (p : ℕ) (vs : List ℚ) (t : ℕ) (ht : t < vs.length) :
    (t < p → (pctChange p vs).getD t PctResult.undef = PctResult.undef) ∧
    (p ≤ t → vs.getD (t - p) 0 = 0 → vs.getD t 0 = 0 →
      (pctChange p vs).getD t PctResult.undef = PctResult.undef) ∧
    (p ≤ t → vs.getD (t - p) 0 = 0 → 0 < vs.getD t 0 →
      (pctChange p vs).getD t PctResult.undef = PctResult.posInf) ∧
    (p ≤ t → vs.getD (t - p) 0 = 0 → vs.getD t 0 < 0 →
      (pctChange p vs).getD t PctResult.undef = PctResult.negInf) := by
  rw [pctChange_getD _ _ _ ht]
  unfold pctChangeAt
  refine ⟨fun h => by rw [if_pos h], fun hp h0 hc => ?_, fun hp h0 hc => ?_, fun hp h0 hc => ?_⟩
  · rw [if_neg (not_lt.mpr hp), if_pos h0, if_pos hc]
  · rw [if_neg (not_lt.mpr hp), if_pos h0, if_neg (ne_of_gt hc), if_pos hc]
  · rw [if_neg (not_lt.mpr hp), if_pos h0, if_neg (ne_of_lt hc), if_neg (not_lt.mpr (le_of_lt hc))]

/-- Witness for C2 at a concrete series. -/
theorem spec_c2_witness :
    (pctChange 12 [(1 : ℚ), 2] ).getD 0 PctResult.undef = PctResult.undef ∧
    (pctChange 1 [(0 : ℚ), 5]).getD 1 PctResult.undef = PctResult.posInf := by
  refine ⟨?_, ?_⟩
  · exact (spec_c2 12 [(1 : ℚ), 2] 0 (by decide)).1 (by decide)
  · exact (spec_c2 1 [(0 : ℚ), 5] 1 (by decide)).2.2.1 (le_refl 1) (by decide) (by decide)

/-! ### C3 -/

/-- C3: after the manufacturer aggregation there is at most one row per
(maker, category code, year) key, each aggregated value is the sum of all raw
rows with that key, and the two duplicate Acme rows (50 and 30) collapse to a
single row of 80. -/
theorem spec_c3 (rows : List MRow) :
    ((aggregateMYC rows).map mKey).Nodup ∧
    (∀ r ∈ aggregateMYC rows,
      r.registrations =
        ((rows.filter (fun x => decide (mKey x = mKey r))).map
          (fun x => x.registrations)).sum) ∧
    aggregateMYC acmeRows = [⟨"Acme", some 2022, "2WT", 80⟩] := by
  refine ⟨?_, ?_, by decide⟩
  · unfold aggregateMYC
    rw [List.map_map]
    have h : (mKey ∘ fun k : String × Option ℤ × String =>
        ({ maker := k.1, year := k.2.1, category := k.2.2,
           registrations :=
             ((rows.filter (fun r => decide (mKey r = k))).map
               (fun r => r.registrations)).sum } : MRow)) = id := rfl
    rw [h, List.map_id]
    exact List.nodup_dedup _
  · intro r hr
    unfold aggregateMYC at hr
    rw [List.mem_map] at hr
    obtain ⟨k, hk, hgen⟩ := hr
    subst hgen
    rfl

/-- Witness for C3: the aggregated Acme row really carries the sum of the two
raw rows. -/
theorem spec_c3_witness :
    (⟨"Acme", some 2022, "2WT", 80⟩ : MRow).registrations =
      ((acmeRows.filter (fun x =>
        decide (mKey x = mKey (⟨"Acme", some 2022, "2WT", 80⟩ : MRow)))).map
        (fun x => x.registrations)).sum :=
  (spec_c3 acmeRows).2.1 _ (by decide)

/-! ### C4 -/

theorem mem_of_mem_applyCategoryFilterM {codes : Option (List String)} {rows : List MRow}
    {r : MRow} (h : r ∈ applyCategoryFilterM codes rows) : r ∈ rows := by
  cases codes with
  | none => exact h
  | some cs =>
    simp only [applyCategoryFilterM] at h
    by_cases hc : cs.isEmpty
    · rw [if_pos hc] at h
      exact h
    · rw [if_neg hc] at h
      exact (List.mem_filter.mp h).1

/-- C4: when the selected maker has no matching registrations summing above
zero under the new predicate (category codes plus year range), the dropdown
resolution drops the maker from the option list and resets the selection to
none; registrations are non-negative per the data model. -/
theorem spec_c4 (rows : List MRow) (sel : CatSelection) (s e : ℤ) (m : String)
    (hnn : ∀ r ∈ rows, 0 ≤ r.registrations)
    (hsum : ((((applyCategoryFilterM (mapDropdownCategoriesToCodes sel) rows).filter
        (fun r => yearInRange r.year s e)).filter (fun r => decide (r.maker = m))).map
        (fun r => r.registrations)).sum ≤ 0) :
    m ∉ (updateMakerDropdown rows sel (some s) (some e) (some m)).1 ∧
    (updateMakerDropdown rows sel (some s) (some e) (some m)).2 = none := by
  have hnotin : m ∉ dropdownMakers rows sel (some s) (some e) := by
    intro hmem
    unfold dropdownMakers sortDescBySnd at hmem
    rw [List.mem_map] at hmem
    obtain ⟨pr, hpr, hprm⟩ := hmem
    rw [List.mem_reverse, (List.perm_insertionSort sumLe _).mem_iff] at hpr
    unfold groupSumByMaker at hpr
    rw [List.mem_map] at hpr
    obtain ⟨mk, hmk, hpr2⟩ := hpr
    have hmkm : mk = m := by rw [← hprm, ← hpr2]
    subst hmkm
    rw [(List.perm_insertionSort _ _).mem_iff, List.mem_dedup, List.mem_map] at hmk
    obtain ⟨r, hr, hrm⟩ := hmk
    unfold dropdownFiltered at hr
    rw [List.mem_filter] at hr
    obtain ⟨hrY, hrPos⟩ := hr
    have hrPos2 : (0 : ℤ) < r.registrations := of_decide_eq_true hrPos
    have hrM : r ∈ ((applyCategoryFilterM (mapDropdownCategoriesToCodes sel) rows).filter
        (fun r => yearInRange r.year s e)).filter (fun r => decide (r.maker = mk)) := by
      rw [List.mem_filter]
      exact ⟨hrY, decide_eq_true hrm⟩
    have hnonneg : ∀ x ∈ (((applyCategoryFilterM (mapDropdownCategoriesToCodes sel)
        rows).filter (fun r => yearInRange r.year s e)).filter
        (fun r => decide (r.maker = mk))).map (fun r => r.registrations), (0 : ℤ) ≤ x := by
      intro x hx
      rw [List.mem_map] at hx
      obtain ⟨r2, hr2, hx2⟩ := hx
      subst hx2
      exact hnn r2 (mem_of_mem_applyCategoryFilterM
        (List.mem_filter.mp (List.mem_filter.mp hr2).1).1)
    have hle := List.single_le_sum hnonneg _ (List.mem_map_of_mem (fun r => r.registrations) hrM)
    exact absurd (lt_of_lt_of_le hrPos2 (le_trans hle hsum)) (lt_irrefl 0)
  refine ⟨hnotin, ?_⟩
  show (if m ∈ dropdownMakers rows sel (some s) (some e) then some m else none) = none
  rw [if_neg hnotin]

/-- One Acme row outside the narrowed year range. -/
def c4rows : List MRow := [⟨"Acme", some 2022, "2WT", 5⟩]

/-- Witness for C4: narrowing the range to 2023 leaves Acme without matching
registrations, so the options drop it and the selection resets. -/
theorem spec_c4_witness :
    "Acme" ∉ (updateMakerDropdown c4rows CatSelection.noneSel (some 2023) (some 2023)
      (some "Acme")).1 ∧
    (updateMakerDropdown c4rows CatSelection.noneSel (some 2023) (some 2023)
      (some "Acme")).2 = none :=
  spec_c4 c4rows CatSelection.noneSel 2023 2023 "Acme" (by decide) (by decide)

/-! ### C5 -/

theorem sortDescBySnd_pairwise (l : List (String × ℤ)) :
    List.Pairwise (fun a b => sumLe b a) (sortDescBySnd l) := by
  unfold sortDescBySnd
  exact List.pairwise_reverse.mpr (List.sorted_insertionSort sumLe l)

theorem mem_sortDescBySnd {x : String × ℤ} {l : List (String × ℤ)} :
    x ∈ sortDescBySnd l ↔ x ∈ l := by
  unfold sortDescBySnd
  rw [List.mem_reverse, (List.perm_insertionSort sumLe _).mem_iff]

/-- Two makers tied at 10 registrations. -/
def tieRows : List MRow := [⟨"A", some 2022, "2WT", 10⟩, ⟨"B", some 2022, "2WT", 10⟩]

/-- C5 counterexample: on two makers tied at 10, the code returns them in
reversed key order ("B" before "A"), while a stable descending sort keeping
the original group-key order — what the claim asserts — returns "A" before
"B". -/
theorem spec_c5_counterexample :
    updateTopMakers tieRows CatSelection.noneSel none 2020 2025 = [("B", 10), ("A", 10)] ∧
    specStableTopN 10
      (groupSumByMaker (topMakersFiltered tieRows CatSelection.noneSel none 2020 2025)) =
      [("A", 10), ("B", 10)] ∧
    ([("B", 10), ("A", 10)] : List (String × ℤ)) ≠ [("A", 10), ("B", 10)] := by
  refine ⟨by decide, by decide, by decide⟩

/-- C5 (amended): the top-10 ranking sorts descending by summed registrations
and truncates only after sorting — the output is non-increasing, has at most
ten entries, consists of aggregated (maker, sum) groups, and no excluded group
exceeds an included one — and is deterministic (a pure function of the input);
but ties are emitted in reverse of the ascending maker-key order rather than
in original group-key order. -/
theorem spec_c5 (rows : List MRow) (sel : CatSelection) (makerSel : Option String) (s e : ℤ) :
    (updateTopMakers rows sel makerSel s e).length ≤ 10 ∧
    List.Pairwise (fun a b => sumLe b a) (updateTopMakers rows sel makerSel s e) ∧
    (∀ x ∈ updateTopMakers rows sel makerSel s e,
      x ∈ groupSumByMaker (topMakersFiltered rows sel makerSel s e)) ∧
    (∀ x ∈ groupSumByMaker (topMakersFiltered rows sel makerSel s e),
      x ∉ updateTopMakers rows sel makerSel s e →
      ∀ y ∈ updateTopMakers rows sel makerSel s e, x.2 ≤ y.2) := by
  refine ⟨?_, ?_, ?_, ?_⟩
  · show ((sortDescBySnd _).take 10).length ≤ 10
    rw [List.length_take]
    exact min_le_left _ _
  · exact List.Pairwise.sublist (List.take_sublist _ _) (sortDescBySnd_pairwise _)
  · intro x hx
    have hx2 : x ∈ sortDescBySnd
        (groupSumByMaker (topMakersFiltered rows sel makerSel s e)) :=
      List.mem_of_mem_take hx
    exact mem_sortDescBySnd.mp hx2
  · intro x hxg hxnot y hy
    have hxL : x ∈ sortDescBySnd
        (groupSumByMaker (topMakersFiltered rows sel makerSel s e)) :=
      mem_sortDescBySnd.mpr hxg
    have hpw : List.Pairwise (fun a b => sumLe b a)
        ((sortDescBySnd (groupSumByMaker (topMakersFiltered rows sel makerSel s e))).take 10 ++
         (sortDescBySnd (groupSumByMaker (topMakersFiltered rows sel makerSel s e))).drop 10) := by
      rw [List.take_append_drop]
      exact sortDescBySnd_pairwise _
    rw [List.pairwise_append] at hpw
    have hxdrop : x ∈ (sortDescBySnd
        (groupSumByMaker (topMakersFiltered rows sel makerSel s e))).drop 10 := by
      have hx3 := hxL
      rw [← List.take_append_drop 10 (sortDescBySnd
        (groupSumByMaker (topMakersFiltered rows sel makerSel s e))), List.mem_append] at hx3
      rcases hx3 with h | h
      · exact absurd h hxnot
      · exact h
    exact hpw.2.2 y hy x hxdrop

/-- Eleven makers with distinct sums, so one group falls below the top-10
cut. -/
def manyRows : List MRow :=
  [⟨"M01", some 2022, "2WT", 1⟩, ⟨"M02", some 2022, "2WT", 2⟩,
   ⟨"M03", some 2022, "2WT", 3⟩, ⟨"M04", some 2022, "2WT", 4⟩,
   ⟨"M05", some 2022, "2WT", 5⟩, ⟨"M06", some 2022, "2WT", 6⟩,
   ⟨"M07", some 2022, "2WT", 7⟩, ⟨"M08", some 2022, "2WT", 8⟩,
   ⟨"M09", some 2022, "2WT", 9⟩, ⟨"M10", some 2022, "2WT", 10⟩,
   ⟨"M11", some 2022, "2WT", 11⟩]

/-- Witness for C5 at a concrete table, exercising the truncation-after-sort
conjunct with a group that misses the cut. -/
theorem spec_c5_witness :
    (updateTopMakers manyRows CatSelection.noneSel none 2020 2025).length ≤ 10 ∧
    ("M11", (11 : ℤ)) ∈ groupSumByMaker
      (topMakersFiltered manyRows CatSelection.noneSel none 2020 2025) ∧
    (("M01", (1 : ℤ)).2 ≤ ("M11", (11 : ℤ)).2) := by
  refine ⟨(spec_c5 manyRows CatSelection.noneSel none 2020 2025).1, ?_, ?_⟩
  · exact (spec_c5 manyRows CatSelection.noneSel none 2020 2025).2.2.1 ("M11", 11) (by decide)
  · exact (spec_c5 manyRows CatSelection.noneSel none 2020 2025).2.2.2 ("M01", 1) (by decide)
      (by decide) ("M11", 11) (by decide)

/-! ### C6 -/

theorem dropWhile_head_false {α : Type} {p : α → Bool} :
    ∀ {l : List α} {a : α} {t : List α}, l.dropWhile p = a :: t → p a = false := by
  intro l
  induction l with
  | nil =>
    intro a t h
    simp [List.dropWhile] at h
  | cons x xs ih =>
    intro a t h
    rw [List.dropWhile_cons] at h
    by_cases hx : p x
    · rw [if_pos hx] at h
      exact ih h
    · rw [if_neg hx] at h
      cases h
      simpa using hx

theorem dropWhile_dropWhile {α : Type} (p : α → Bool) (l : List α) :
    (l.dropWhile p).dropWhile p = l.dropWhile p := by
  cases h : l.dropWhile p with
  | nil => rfl
  | cons a t =>
    rw [List.dropWhile_cons]
    simp [dropWhile_head_false h]

theorem dropWhile_stripChars (l : List Char) :
    (stripChars l).dropWhile Char.isWhitespace = stripChars l := by
  cases h2 : (l.dropWhile Char.isWhitespace).reverse.dropWhile Char.isWhitespace with
  | nil =>
    unfold stripChars
    rw [h2]
    rfl
  | cons a t =>
    have hsuff : (a :: t) <:+ (l.dropWhile Char.isWhitespace).reverse := by
      rw [← h2]
      exact List.dropWhile_suffix _
    have hpref : (a :: t).reverse <+: ((l.dropWhile Char.isWhitespace).reverse).reverse :=
      List.reverse_prefix.mpr hsuff
    rw [List.reverse_reverse] at hpref
    obtain ⟨rest, hrest⟩ := hpref
    cases hh : (a :: t).reverse with
    | nil => simpa using congrArg List.length hh
    | cons b u =>
      have hdw : l.dropWhile Char.isWhitespace = b :: (u ++ rest) := by
        rw [← hrest, hh]
        rfl
      have hb : Char.isWhitespace b = false := dropWhile_head_false hdw
      unfold stripChars
      rw [h2, hh, List.dropWhile_cons]
      simp [hb]

theorem stripChars_idem (l : List Char) : stripChars (stripChars l) = stripChars l := by
  have h1 := dropWhile_stripChars l
  show (((stripChars l).dropWhile _).reverse.dropWhile _).reverse = stripChars l
  rw [h1]
  have h2 : (stripChars l).reverse =
      ((l.dropWhile Char.isWhitespace).reverse).dropWhile Char.isWhitespace := by
    unfold stripChars
    rw [List.reverse_reverse]
  rw [h2, dropWhile_dropWhile, ← h2, List.reverse_reverse]

theorem pyStrip_idem (s : String) : pyStrip (pyStrip s) = pyStrip s :=
  congrArg String.mk (stripChars_idem s.data)

theorem lookup_val_mem {s v : String} (h : lookupCode s = some v) :
    v ∈ CATEGORY_CODE_MAP.map (fun kv => kv.2) := by
  unfold lookupCode at h
  cases hf : CATEGORY_CODE_MAP.find? (fun kv => kv.1 == s) with
  | none =>
    rw [hf] at h
    simp at h
  | some kv =>
    rw [hf] at h
    have hv : kv.2 = v := by simpa using h
    rw [← hv]
    exact List.mem_map_of_mem _ (List.mem_of_find?_eq_some hf)

theorem codes_fixed :
    ∀ v ∈ CATEGORY_CODE_MAP.map (fun kv => kv.2), mapOneCategory v = v ∧ ¬ v = "" := by
  decide

theorem mapOneCategory_idem (c : String) :
    mapOneCategory (mapOneCategory c) = mapOneCategory c := by
  cases h : lookupCode (pyStrip c) with
  | none =>
    have h1 : mapOneCategory c = pyStrip c := by
      unfold mapOneCategory
      rw [h]
    rw [h1]
    unfold mapOneCategory
    rw [pyStrip_idem, h]
  | some code =>
    by_cases hc : code = ""
    · have h1 : mapOneCategory c = pyStrip c := by
        unfold mapOneCategory
        rw [h]
        show (if code = "" then pyStrip c else code) = pyStrip c
        rw [if_pos hc]
      rw [h1]
      unfold mapOneCategory
      rw [pyStrip_idem, h]
      show (if code = "" then pyStrip c else code) = pyStrip c
      rw [if_pos hc]
    · have h1 : mapOneCategory c = code := by
        unfold mapOneCategory
        rw [h]
        show (if code = "" then pyStrip c else code) = code
        rw [if_neg hc]
      rw [h1]
      exact (codes_fixed code (lookup_val_mem h)).1

/-- C6 counterexample: " 2WT " is not one of the ten canonical labels, yet it
does not pass through unchanged — the reconciler strips it to "2WT". -/
theorem spec_c6_counterexample :
    mapOneCategory " 2WT " = "2WT" ∧
    " 2WT " ∉ CATEGORY_CODE_MAP.map (fun kv => kv.1) ∧
    ("2WT" : String) ≠ " 2WT " := by
  refine ⟨by decide, by decide, by decide⟩

/-- C6 (amended): each value is first stripped of surrounding whitespace; a
stripped canonical label is replaced by its code, any other value passes
through in stripped form (not verbatim); mapping an already-valid code is a
no-op, and applying the reconciler twice equals applying it once. -/
theorem spec_c6 (c : String) :
    (∀ kv ∈ CATEGORY_CODE_MAP, mapOneCategory kv.1 = kv.2) ∧
    (lookupCode (pyStrip c) = none → mapOneCategory c = pyStrip c) ∧
    (∀ v ∈ CATEGORY_CODE_MAP.map (fun kv => kv.2), mapOneCategory v = v) ∧
    mapOneCategory (mapOneCategory c) = mapOneCategory c := by
  refine ⟨by decide, ?_, fun v hv => (codes_fixed v hv).1, mapOneCategory_idem c⟩
  intro h
  unfold mapOneCategory
  rw [h]

/-- Witness for C6 at concrete values. -/
theorem spec_c6_witness :
    mapOneCategory "TWO WHEELER(T)" = "2WT" ∧
    mapOneCategory " xyz " = pyStrip " xyz " ∧
    mapOneCategory "2WN" = "2WN" ∧
    mapOneCategory (mapOneCategory "LIGHT MOTOR VEHICLE") =
      mapOneCategory "LIGHT MOTOR VEHICLE" := by
  refine ⟨?_, ?_, ?_, ?_⟩
  · exact (spec_c6 "TWO WHEELER(T)").1 ("TWO WHEELER(T)", "2WT") (by decide)
  · exact (spec_c6 " xyz ").2.1 (by decide)
  · exact (spec_c6 "2WN").2.2.1 "2WN" (by decide)
  · exact (spec_c6 "LIGHT MOTOR VEHICLE").2.2.2

/-! ### C7 -/

/-- C7: a None selection, an empty list and an empty string all map to None
("no filter"), and downstream the None code list leaves every row in place
rather than matching nothing. -/
theorem spec_c7 :
    mapDropdownCategoriesToCodes CatSelection.noneSel = none ∧
    mapDropdownCategoriesToCodes (CatSelection.listSel []) = none ∧
    mapDropdownCategoriesToCodes (CatSelection.strSel "") = none ∧
    (∀ rows : List MRow,
      applyCategoryFilterM (mapDropdownCategoriesToCodes CatSelection.noneSel) rows = rows) ∧
    (∀ rows : List MRow,
      applyCategoryFilterM (mapDropdownCategoriesToCodes (CatSelection.listSel [])) rows
        = rows) :=
  ⟨rfl, rfl, rfl, fun _ => rfl, fun _ => rfl⟩

/-! ### C8 -/

/-- C8 counterexample: a cell parsing to -5 is kept as the negative integer -5
by the coercion, so the output is not guaranteed non-negative. -/
theorem spec_c8_counterexample :
    coerceRegistration (some (-5)) = -5 ∧ ¬ ((0 : ℤ) ≤ -5) := by
  refine ⟨by decide, by decide⟩

/-- C8 (amended): the coercion is total (never raises; one output per cell),
every output is an integer, parse failures coerce to 0, and the output is
non-negative whenever the parsed numeric value is non-negative — but a
negative parsed value passes through as a negative integer. -/
theorem spec_c8 (cells : List (Option ℚ)) (q : ℚ) :
    (coerceRegistrations cells).length = cells.length ∧
    coerceRegistration none = 0 ∧
    (0 ≤ q → 0 ≤ coerceRegistration (some q)) := by
  refine ⟨List.length_map _ _, rfl, fun hq => ?_⟩
  show (0 : ℤ) ≤ truncToInt q
  exact Int.tdiv_nonneg (Rat.num_nonneg.mpr hq) (Int.natCast_nonneg q.den)

/-- Witness for C8 at concrete cells. -/
theorem spec_c8_witness :
    (coerceRegistrations [none, some (-5)]).length = [none, some (-5 : ℚ)].length ∧
    coerceRegistration none = 0 ∧
    (0 : ℤ) ≤ coerceRegistration (some 3) :=
  ⟨(spec_c8 [none, some (-5)] 0).1, (spec_c8 [] 0).2.1, (spec_c8 [] 3).2.2 (by decide)⟩

/-! ### C9 -/

/-- C9: the normalizer signals a caller-visible configuration error when no
date-like column (Date, MonthRaw, or Year+Month) exists, and the category
column finder errors when no column name contains "category" or "vehicle". -/
theorem spec_c9 (cols : List String) :
    ("Date" ∉ cols → "MonthRaw" ∉ cols → ¬ ("Year" ∈ cols ∧ "Month" ∈ cols) →
      chooseDateSource cols =
        Except.error "No Date/MonthRaw/Year+Month in category monthly file") ∧
    ((∀ c ∈ cols, strContainsLower c "category".data = false ∧
        strContainsLower c "vehicle".data = false) →
      find_category_col cols = Except.error "Could not find category column") := by
  constructor
  · intro h1 h2 h3
    unfold chooseDateSource
    rw [if_neg h1, if_neg h2, if_neg h3]
  · intro h
    unfold find_category_col
    have hf : cols.find? (fun c =>
        strContainsLower c "category".data || strContainsLower c "vehicle".data) = none := by
      rw [List.find?_eq_none]
      intro x hx
      simp [(h x hx).1, (h x hx).2]
    rw [hf]

/-- Witness for C9 on a table with neither a date-like nor a label-like
column. -/
theorem spec_c9_witness :
    chooseDateSource ["S.No", "Total"] =
      Except.error "No Date/MonthRaw/Year+Month in category monthly file" ∧
    find_category_col ["S.No", "Total"] = Except.error "Could not find category column" :=
  ⟨(spec_c9 ["S.No", "Total"]).1 (by decide) (by decide) (by decide),
   (spec_c9 ["S.No", "Total"]).2 (by decide)⟩

/-! ### C10 -/

/-- C10: the monthly YoY series handed to the charts is recomputed over only
the rows inside the selected range, so each of the first 12 in-range positions
is undefined regardless of history outside the range; concretely, restricting
13 months of history to the last month alone turns that month's YoY from the
full-data value 10 into undefined. -/
theorem spec_c10 (rows : List CatRow) (s e : ℕ) (sel : CatSelection) (g : String) :
    (∀ t, t < 12 → (mainChartsYoY rows s e sel g).getD t PctResult.undef = PctResult.undef) ∧
    mainChartsYoY rows13 12 12 CatSelection.noneSel "LMV" = [PctResult.undef] ∧
    (pctChange 12 (groupSeries "LMV" rows13)).getD 12 PctResult.undef = PctResult.val 10 := by
  refine ⟨?_, by decide, ?_⟩
  · intro t ht
    unfold mainChartsYoY
    rcases lt_or_ge t (groupSeries g (mainChartsData rows s e sel)).length with hlt | hge
    · rw [pctChange_getD _ _ _ hlt]
      unfold pctChangeAt
      rw [if_pos ht]
    · exact List.getD_eq_default _ _ (by rw [length_pctChange]; exact hge)
  · have hgs : groupSeries "LMV" rows13
        = [100, 100, 100, 100, 100, 100, 100, 100, 100, 100, 100, 100, 110] := by decide
    rw [hgs, pctChange_getD _ _ _ (by decide)]
    unfold pctChangeAt
    norm_num

/-- Witness for C10: the first in-range month of the narrowed query has an
undefined YoY value. -/
theorem spec_c10_witness :
    (mainChartsYoY rows13 12 12 CatSelection.noneSel "LMV").getD 0 PctResult.undef =
      PctResult.undef :=
  (spec_c10 rows13 12 12 CatSelection.noneSel "LMV").1 0 (by decide)
